import Mathlib

/-!
Verification development for the live/motion photo converter
(`converter.py`, `utils.py`, `main.py`, `batch.py`).

Files are modelled as byte lists together with a metadata tag record;
external collaborators (exiftool, ffmpeg/ffprobe, magick, heif tools,
the AVFoundation writer) are modelled at their capability interface:
a metadata read yields the stored tag values rendered the way the
Python code parses them, and a metadata write updates the tag record.
Python string operations (`strip`, `split`, `isdigit`, `int`, `str`)
are embedded as functions on `List Char`.
-/

namespace MotionPhoto

/-- ASCII decimal digit test, the model of Python `str.isdigit` on the
byte strings this program handles. -/
def isDigitC (c : Char) : Bool := 48 ≤ c.toNat && c.toNat ≤ 57

/-- Whitespace test used by Python `str.strip`. -/
def isSpaceC (c : Char) : Bool :=
  c.toNat = 32 || c.toNat = 9 || c.toNat = 10 || c.toNat = 13 || c.toNat = 11 || c.toNat = 12

/-- Model of Python `str.strip`: drop leading and trailing whitespace. -/
def pyStrip (l : List Char) : List Char :=
  ((l.dropWhile isSpaceC).reverse.dropWhile isSpaceC).reverse

/-- Model of Python `str.isdigit`: nonempty and all decimal digits. -/
def pyIsDigitL (l : List Char) : Bool := !l.isEmpty && l.all isDigitC

/-- Model of Python `str.split(sep)` for a single-character separator.
Always returns at least one group, like Python `split`. -/
def splitC (sep : Char) : List Char → List (List Char)
  | [] => [[]]
  | c :: cs =>
    if c = sep then [] :: splitC sep cs
    else
      match splitC sep cs with
      | [] => [[c]]
      | g :: gs => (c :: g) :: gs

/-- Numeric value of a digit-only string, the `int(...)` applied by the
code after `isdigit` has succeeded. -/
def digitsToNat (l : List Char) : Nat :=
  l.foldl (fun a c => 10 * a + (c.toNat - 48)) 0

/-- Digit characters 0-9. -/
def digitChar (d : Nat) : Char :=
  match d with
  | 0 => '0' | 1 => '1' | 2 => '2' | 3 => '3' | 4 => '4'
  | 5 => '5' | 6 => '6' | 7 => '7' | 8 => '8' | 9 => '9'
  | _ => '*'

/-- Little-endian decimal digits of a natural number, with explicit fuel
so the definition is structurally recursive. -/
def natDigitsAux : Nat → Nat → List Nat
  | 0, _ => []
  | _ + 1, 0 => []
  | fuel + 1, n + 1 => ((n + 1) % 10) :: natDigitsAux fuel ((n + 1) / 10)

/-- Little-endian decimal digits of `n`. -/
def natDigits (n : Nat) : List Nat := natDigitsAux n n

/-- Decimal rendering of a natural number, the model of Python `str(n)`
for `n ≥ 0` (and of the decimal values exiftool prints with `-n`). -/
def natDecStr (n : Nat) : List Char :=
  if n = 0 then ['0'] else ((natDigits n).map digitChar).reverse

/-- Decimal rendering of an integer, the model of Python `str(n)`. -/
def intDecStr (n : Int) : List Char :=
  if n < 0 then '-' :: natDecStr n.natAbs else natDecStr n.toNat

/-- Model of Python `int(s)` on an already-stripped string: optional
sign followed by decimal digits; anything else raises (`none`). -/
def pyParseInt (l : List Char) : Option Int :=
  match l with
  | [] => none
  | c :: rest =>
    if c = '-' then
      if pyIsDigitL rest then some (-(digitsToNat rest : Int)) else none
    else if c = '+' then
      if pyIsDigitL rest then some ((digitsToNat rest : Nat) : Int) else none
    else if pyIsDigitL (c :: rest) then some ((digitsToNat (c :: rest) : Nat) : Int)
    else none

section NumberLemmas

theorem digitChar_toNat_sub (d : Nat) (hd : d < 10) : (digitChar d).toNat - 48 = d := by
  interval_cases d <;> decide

theorem isDigitC_digitChar (d : Nat) (hd : d < 10) : isDigitC (digitChar d) = true := by
  interval_cases d <;> decide

theorem pyIsDigitL_iff {l : List Char} :
    pyIsDigitL l = true ↔ l ≠ [] ∧ ∀ c ∈ l, isDigitC c = true := by
  cases l <;> simp [pyIsDigitL]

theorem natDigitsAux_lt (fuel n : Nat) : ∀ d ∈ natDigitsAux fuel n, d < 10 := by
  induction fuel generalizing n with
  | zero => intro d hd; simp [natDigitsAux] at hd
  | succ fuel ih =>
    intro d hd
    match n with
    | 0 => simp [natDigitsAux] at hd
    | n + 1 =>
      simp only [natDigitsAux, List.mem_cons] at hd
      rcases hd with h | h
      · omega
      · exact ih _ d h

theorem natDigits_lt (n : Nat) : ∀ d ∈ natDigits n, d < 10 :=
  natDigitsAux_lt n n

/-- Folding the digits back recovers the number. -/
theorem foldr_natDigitsAux (fuel n : Nat) (h : n ≤ fuel) :
    (natDigitsAux fuel n).foldr (fun d a => d + 10 * a) 0 = n := by
  induction fuel generalizing n with
  | zero => interval_cases n; simp [natDigitsAux]
  | succ fuel ih =>
    match n with
    | 0 => simp [natDigitsAux]
    | n + 1 =>
      have hdiv : (n + 1) / 10 ≤ fuel := by
        have := Nat.div_lt_self (Nat.succ_pos n) (by omega : 1 < 10)
        omega
      simp only [natDigitsAux, List.foldr_cons, ih _ hdiv]
      omega

theorem digitsToNat_natDecStr (n : Nat) : digitsToNat (natDecStr n) = n := by
  by_cases h0 : n = 0
  · subst h0; decide
  · have hfold : ∀ (ds : List Nat), (∀ d ∈ ds, d < 10) →
        (ds.map digitChar).reverse.foldl (fun a c => 10 * a + (c.toNat - 48)) 0 =
          ds.foldr (fun d a => d + 10 * a) 0 := by
      intro ds hds
      rw [List.foldl_reverse]
      induction ds with
      | nil => simp
      | cons d rest ih =>
        have hd : d < 10 := hds d (List.mem_cons_self d rest)
        have hrest : ∀ x ∈ rest, x < 10 := fun x hx => hds x (List.mem_cons_of_mem d hx)
        simp only [List.map_cons, List.foldr_cons, ih hrest, digitChar_toNat_sub d hd]
        omega
    simp only [natDecStr, h0, if_false, digitsToNat]
    rw [hfold (natDigits n) (natDigits_lt n)]
    simp only [natDigits]
    exact foldr_natDigitsAux n n (Nat.le_refl n)

theorem natDigits_ne_nil (n : Nat) (h : n ≠ 0) : natDigits n ≠ [] := by
  match n, h with
  | n + 1, _ => simp [natDigits, natDigitsAux]

theorem pyIsDigitL_natDecStr (n : Nat) : pyIsDigitL (natDecStr n) = true := by
  by_cases h0 : n = 0
  · subst h0; decide
  · rw [pyIsDigitL_iff]
    constructor
    · have := natDigits_ne_nil n h0
      simp only [natDecStr, h0, if_false]
      cases hnd : natDigits n with
      | nil => exact absurd hnd this
      | cons d rest => simp [hnd]
    · intro c hc
      simp only [natDecStr, h0, if_false] at hc
      rw [List.mem_reverse, List.mem_map] at hc
      obtain ⟨d, hd, rfl⟩ := hc
      exact isDigitC_digitChar d (natDigits_lt n d hd)

theorem isDigitC_not_space {c : Char} (h : isDigitC c = true) : isSpaceC c = false := by
  simp only [isDigitC, Bool.and_eq_true, decide_eq_true_eq] at h
  simp only [isSpaceC, Bool.or_eq_false_iff, decide_eq_false_iff_not]
  omega

theorem dropWhile_isSpaceC_of_digits (l : List Char) (hne : l ≠ [])
    (hdig : ∀ c ∈ l, isDigitC c = true) : l.dropWhile isSpaceC = l := by
  cases l with
  | nil => exact absurd rfl hne
  | cons c cs =>
    have : isSpaceC c = false := isDigitC_not_space (hdig c (List.mem_cons_self c cs))
    simp [List.dropWhile_cons, this]

theorem pyStrip_digits (l : List Char) (h : pyIsDigitL l = true) : pyStrip l = l := by
  obtain ⟨hne, hdig⟩ := pyIsDigitL_iff.mp h
  have h1 : l.dropWhile isSpaceC = l := dropWhile_isSpaceC_of_digits l hne hdig
  have h2 : l.reverse.dropWhile isSpaceC = l.reverse := by
    apply dropWhile_isSpaceC_of_digits
    · simp [hne]
    · intro c hc; exact hdig c (List.mem_reverse.mp hc)
  simp [pyStrip, h1, h2]

theorem pyStrip_space_digits (l : List Char) (h : pyIsDigitL l = true) :
    pyStrip (' ' :: l) = l := by
  obtain ⟨hne, hdig⟩ := pyIsDigitL_iff.mp h
  have h1 : (' ' :: l).dropWhile isSpaceC = l := by
    rw [List.dropWhile_cons]
    simp only [show isSpaceC ' ' = true by decide, if_true]
    exact dropWhile_isSpaceC_of_digits l hne hdig
  have h2 : l.reverse.dropWhile isSpaceC = l.reverse := by
    apply dropWhile_isSpaceC_of_digits
    · simp [hne]
    · intro c hc; exact hdig c (List.mem_reverse.mp hc)
  simp [pyStrip, h1, h2]

theorem splitC_no_sep (sep : Char) (l : List Char) (h : sep ∉ l) :
    splitC sep l = [l] := by
  induction l with
  | nil => rfl
  | cons c cs ih =>
    have hc : ¬ c = sep := fun hcs => h (hcs ▸ List.mem_cons_self c cs)
    have hcs : sep ∉ cs := fun hm => h (List.mem_cons_of_mem c hm)
    simp [splitC, hc, ih hcs]

theorem splitC_append_sep (sep : Char) (a b : List Char) (ha : sep ∉ a) :
    splitC sep (a ++ sep :: b) = a :: splitC sep b := by
  induction a with
  | nil => simp [splitC]
  | cons c cs ih =>
    have hc : ¬ c = sep := fun hcs => ha (hcs ▸ List.mem_cons_self c cs)
    have hcs : sep ∉ cs := fun hm => ha (List.mem_cons_of_mem c hm)
    have key : splitC sep ((c :: cs) ++ sep :: b) =
        match splitC sep (cs ++ sep :: b) with
        | [] => [[c]]
        | g :: gs => (c :: g) :: gs := by
      simp [splitC, hc]
    rw [key, ih hcs]

theorem pyParseInt_natDecStr (n : Nat) : pyParseInt (natDecStr n) = some (n : Int) := by
  have hdig := pyIsDigitL_natDecStr n
  have hval := digitsToNat_natDecStr n
  have hne : natDecStr n ≠ [] := (pyIsDigitL_iff.mp hdig).1
  have hhead : ∀ c ∈ natDecStr n, isDigitC c = true := (pyIsDigitL_iff.mp hdig).2
  cases hls : natDecStr n with
  | nil => exact absurd hls hne
  | cons c cs =>
    have hc : isDigitC c = true := by
      rw [hls] at hhead; exact hhead c (List.mem_cons_self c cs)
    have hcm : ¬ c = '-' := by
      intro hcc; subst hcc; simp [isDigitC] at hc
    have hcp : ¬ c = '+' := by
      intro hcc; subst hcc; simp [isDigitC] at hc
    rw [hls] at hdig hval
    simp [pyParseInt, hcm, hcp, hdig, hval]

end NumberLemmas

/-- Metadata tag record of a media file, the model of what exiftool can
read from and write to it. Field names follow the tag names used by
`utils.py`; values are stored the way exiftool prints them with `-n`
(decimal strings), except `orientation` which the code only ever writes
numerically. -/
structure ImageMeta where
  exifMicroVideo : Option (List Char) := none
  exifEmbeddedVideo : Option (List Char) := none
  exifXiaomiMicroVideo : Option (List Char) := none
  microVideo : Option (List Char) := none
  microVideoVersion : Option (List Char) := none
  microVideoOffset : Option (List Char) := none
  microVideoTsUs : Option (List Char) := none
  motionPhoto : Option (List Char) := none
  motionPhotoVersion : Option (List Char) := none
  motionPhotoTsUs : Option (List Char) := none
  directory0Mime : Option (List Char) := none
  directory0Semantic : Option (List Char) := none
  directory1Mime : Option (List Char) := none
  directory1Semantic : Option (List Char) := none
  directory1Length : Option (List Char) := none
  directory1Padding : Option (List Char) := none
  directoryItemLength : Option (List Char) := none
  livePhotoVideoIndex : Option (List Char) := none
  orientation : Option Nat := none
  contentIdentifier : Option (List Char) := none
  hdrGainMapVersion : Option (List Char) := none
  auxiliaryImageType : Option (List Char) := none
  transferCharacteristics : Option (List Char) := none
  mpfNumberOfImages : Option (List Char) := none
  makerNotesInjected : Bool := false
deriving DecidableEq

/-- A file on disk: its path, its raw bytes, and its metadata record. -/
structure PyFile where
  path : List Char
  bytes : List Nat
  meta : ImageMeta
deriving DecidableEq

/-- Python exception values surfaced by the modelled functions. The
first three constructors are the three `ValueError` raises of
`split_motion_photo_jpg` and the motion-photo check of
`jpg_motion_to_heic_mov`; `calledProcessError` is the error raised by
`run_command` when a required external tool exits nonzero. -/
inductive PyErr where
  | notMotionPhoto
  | invalidSize
  | corruptTrailing
  | calledProcessError
  | runtimeError
deriving DecidableEq

/-- Render the exiftool `-s` output line for one requested tag: absent
tags print nothing, present tags print `Name: value`. -/
def optTagLine (name : List Char) (v : Option (List Char)) : List (List Char) :=
  match v with
  | none => []
  | some s => [name ++ ':' :: ' ' :: s]

/-- One line of the first probe of `get_motion_photo_video_size`:
`value = line.split(':')[-1].strip()`, accepted when `value.isdigit()`. -/
def parseDigitTagLine (l : List Char) : Option Nat :=
  let value := pyStrip ((splitC ':' l).getLastD [])
  if pyIsDigitL value then some (digitsToNat value) else none

/-- One line of the vendor probe of `get_motion_photo_video_size`: the
value after the colon is split on commas, each part stripped, and the
last part accepted when it is all digits. -/
def parseVendorTagLine (l : List Char) : Option Nat :=
  let value := pyStrip ((splitC ':' l).getLastD [])
  let parts := (splitC ',' value).map pyStrip
  let lastPart := parts.getLastD []
  if pyIsDigitL lastPart then some (digitsToNat lastPart) else none

/-- Short tag name printed by exiftool for `XMP-GCamera:MicroVideoOffset`. -/
def microVideoOffsetTag : List Char := "MicroVideoOffset".data

/-- Short tag name printed by exiftool for `XMP-Container:Directory1Length`. -/
def directory1LengthTag : List Char := "Directory1Length".data

/-- Short tag name printed by exiftool for the vendor `DirectoryItemLength`. -/
def directoryItemLengthTag : List Char := "DirectoryItemLength".data

/-- Model of `utils.get_motion_photo_video_size`: probe
`XMP-GCamera:MicroVideoOffset` and `XMP-Container:Directory1Length`
first (first line whose value is all digits wins), then fall back to
the vendor `DirectoryItemLength` tag, taking the last comma-separated
element. Returns `none` when nothing parses. -/
def get_motion_photo_video_size (m : ImageMeta) : Option Nat :=
  let lines1 := optTagLine microVideoOffsetTag m.microVideoOffset ++
                optTagLine directory1LengthTag m.directory1Length
  match lines1.findSome? parseDigitTagLine with
  | some n => some n
  | none =>
    let lines2 := optTagLine directoryItemLengthTag m.directoryItemLength
    if lines2.isEmpty then none
    else lines2.findSome? parseVendorTagLine

/-- Model of `utils.get_motion_photo_presentation_timestamp_us`: with
`-s3` exiftool prints the bare values of the present tags, requested
order `MotionPhotoPresentationTimestampUs` then
`MicroVideoPresentationTimestampUs`; the first all-digit line wins. -/
def get_motion_photo_presentation_timestamp_us (m : ImageMeta) : Option Nat :=
  let lines := (m.motionPhotoTsUs.toList ++ m.microVideoTsUs.toList).map pyStrip
  lines.findSome? fun l =>
    if l.isEmpty then none
    else if pyIsDigitL l then some (digitsToNat l) else none

/-- Python values that flow into `_safe_non_negative_int`. -/
inductive PyVal where
  | pynone
  | int (n : Int)
  | str (s : List Char)
deriving DecidableEq

/-- Model of Python `str(value)` on those values. -/
def pyStrv : PyVal → List Char
  | .pynone => "None".data
  | .int n => intDecStr n
  | .str s => s

/-- Model of `utils._safe_non_negative_int`:
`int(str(value).strip())`, with any parse failure or negative result
replaced by the default. -/
def _safe_non_negative_int (v : PyVal) (default : Int) : Int :=
  match pyParseInt (pyStrip (pyStrv v)) with
  | none => default
  | some p => if 0 ≤ p then p else default

/-- Model of `utils.inject_motion_photo_metadata`: the exiftool write of
the v1 (MicroVideo), redundant MotionPhoto, and v2 (Container
Directory) tag schemes, with the coerced presentation timestamp. The
byte rewrite exiftool performs is abstracted at the MetadataStore
interface: the tag record is updated, the byte payload is the image's. -/
def inject_motion_photo_metadata (m : ImageMeta) (video_size_bytes : Nat)
    (presentation_timestamp_us : PyVal) : ImageMeta :=
  let ts_us := _safe_non_negative_int presentation_timestamp_us 0
  { m with
    exifMicroVideo := some "1".data
    exifEmbeddedVideo := some "1".data
    exifXiaomiMicroVideo := some "1".data
    microVideo := some "1".data
    microVideoVersion := some "1".data
    microVideoOffset := some (natDecStr video_size_bytes)
    microVideoTsUs := some (natDecStr ts_us.toNat)
    motionPhoto := some "1".data
    motionPhotoVersion := some "1".data
    motionPhotoTsUs := some (natDecStr ts_us.toNat)
    directory0Mime := some "image/jpeg".data
    directory0Semantic := some "Primary".data
    directory1Mime := some "video/mp4".data
    directory1Semantic := some "MotionPhoto".data
    directory1Length := some (natDecStr video_size_bytes)
    directory1Padding := some "0".data }

/-- Model of `utils.split_motion_photo_jpg`. Python computes
`static_size = file_size - video_size` as a possibly negative int and
raises when it is `<= 0`; here that test is `file_size ≤ video_size`.
`video_size <= 0` reduces to `video_size = 0` because the detected
value is parsed from digits. The two `f.read` calls on the same open
file are `take`/`drop` at `static_size`. -/
def split_motion_photo_jpg (f : PyFile) : Except PyErr (List Nat × List Nat) :=
  match get_motion_photo_video_size f.meta with
  | none => .error .notMotionPhoto
  | some video_size =>
    if video_size = 0 then .error .notMotionPhoto
    else
      let file_size := f.bytes.length
      if file_size ≤ video_size then .error .invalidSize
      else
        let static_size := file_size - video_size
        let static_data := f.bytes.take static_size
        let video_data := f.bytes.drop static_size
        if video_data.length ≠ video_size then .error .corruptTrailing
        else .ok (static_data, video_data)

/-- Model of `converter.create_motion_photo`, steps 3-5: read the final
video byte count, inject the Motion Photo metadata into the (already
converted) JPG before appending, then concatenate JPG bytes and MP4
bytes with no separator. Steps 1-2 (image and video transcodes) are
external collaborators producing the `image` and `video_bytes`
arguments. -/
def create_motion_photo (image : PyFile) (video_bytes : List Nat)
    (out_path : List Char) : PyFile :=
  let tagged := inject_motion_photo_metadata image.meta video_bytes.length (PyVal.int 0)
  { path := out_path, bytes := image.bytes ++ video_bytes, meta := tagged }

section DetectionLemmas

theorem colon_not_mem_of_digits (v : List Char) (hv : pyIsDigitL v = true) :
    ':' ∉ v := by
  intro hc
  have := (pyIsDigitL_iff.mp hv).2 ':' hc
  simp [isDigitC] at this

theorem parseDigitTagLine_value (name v : List Char) (hn : ':' ∉ name)
    (hv : pyIsDigitL v = true) :
    parseDigitTagLine (name ++ ':' :: ' ' :: v) = some (digitsToNat v) := by
  have hvn : ':' ∉ (' ' :: v) := by
    intro hc
    rcases List.mem_cons.mp hc with h | h
    · exact absurd h.symm (by decide)
    · exact colon_not_mem_of_digits v hv h
  simp only [parseDigitTagLine, splitC_append_sep ':' name (' ' :: v) hn,
    splitC_no_sep ':' (' ' :: v) hvn]
  simp only [List.getLastD_cons, List.getLastD_nil,
    pyStrip_space_digits v hv, hv, if_true]

theorem findSome?_parse_offset_line (v : List Char) (rest : List (List Char))
    (hv : pyIsDigitL v = true) :
    ((microVideoOffsetTag ++ ':' :: ' ' :: v) :: rest).findSome? parseDigitTagLine =
      some (digitsToNat v) := by
  rw [List.findSome?_cons,
    parseDigitTagLine_value microVideoOffsetTag v (by decide) hv]

theorem get_motion_photo_video_size_inject (m : ImageMeta) (vs : Nat) (ts : PyVal) :
    get_motion_photo_video_size (inject_motion_photo_metadata m vs ts) = some vs := by
  have hline := findSome?_parse_offset_line (natDecStr vs)
    (optTagLine directory1LengthTag (some (natDecStr vs))) (pyIsDigitL_natDecStr vs)
  simp only [get_motion_photo_video_size, inject_motion_photo_metadata, optTagLine,
    List.cons_append, List.nil_append] at hline ⊢
  rw [hline]
  simp [digitsToNat_natDecStr]

end DetectionLemmas

/-- C1: round-trip of assembly and splitting. For a (nonempty) converted
image and a non-empty video byte string, injecting the metadata that
carries offset `len(V)` and concatenating image and video bytes with no
separator yields a composite whose split returns exactly the
metadata-injected image payload and a bit-identical video: the trailing
`len(V)` bytes of the composite equal `V` and the leading
`fileSize - len(V)` bytes equal the metadata-injected image. -/
theorem create_then_split_round_trip (image : PyFile) (video_bytes : List Nat)
    (out_path : List Char) (himg : image.bytes ≠ []) (hvid : video_bytes ≠ []) :
    split_motion_photo_jpg (create_motion_photo image video_bytes out_path) =
      .ok (image.bytes, video_bytes) ∧
    (create_motion_photo image video_bytes out_path).bytes.drop
      ((create_motion_photo image video_bytes out_path).bytes.length - video_bytes.length) =
      video_bytes ∧
    (create_motion_photo image video_bytes out_path).bytes.take
      ((create_motion_photo image video_bytes out_path).bytes.length - video_bytes.length) =
      image.bytes := by
  have himgl : 0 < image.bytes.length := List.length_pos.mpr himg
  have hvidl : 0 < video_bytes.length := List.length_pos.mpr hvid
  have hdet := get_motion_photo_video_size_inject image.meta video_bytes.length (PyVal.int 0)
  have hbytes : (create_motion_photo image video_bytes out_path).bytes =
      image.bytes ++ video_bytes := rfl
  have hmeta : (create_motion_photo image video_bytes out_path).meta =
      inject_motion_photo_metadata image.meta video_bytes.length (PyVal.int 0) := rfl
  have hlen : (image.bytes ++ video_bytes).length =
      image.bytes.length + video_bytes.length := List.length_append _ _
  have hsub : image.bytes.length + video_bytes.length - video_bytes.length =
      image.bytes.length := by omega
  refine ⟨?_, ?_, ?_⟩
  · simp only [split_motion_photo_jpg, hmeta, hdet, hbytes, hlen, hsub]
    rw [if_neg (by omega), if_neg (by omega), List.take_left, List.drop_left]
    rw [if_neg (by omega)]
  · rw [hbytes, hlen, hsub, List.drop_left]
  · rw [hbytes, hlen, hsub, List.take_left]

/-- C2: split size invariant and corruption guard. Whenever detection
returns `v`, splitting succeeds exactly when `0 < v < fileSize`; on
success the static part has length `fileSize - v`, the video part has
length exactly `v`, and the two lengths sum to `fileSize`; a file whose
total size is at most the declared offset (for instance one truncated
below `v` bytes) makes the split raise instead of returning. -/
theorem split_size_invariant (f : PyFile) (v : Nat)
    (hdet : get_motion_photo_video_size f.meta = some v) :
    ((∃ s vd, split_motion_photo_jpg f = .ok (s, vd)) ↔ 0 < v ∧ v < f.bytes.length) ∧
    (∀ s vd, split_motion_photo_jpg f = .ok (s, vd) →
      s.length = f.bytes.length - v ∧ vd.length = v ∧
      s.length + vd.length = f.bytes.length) ∧
    (f.bytes.length ≤ v → ∃ e, split_motion_photo_jpg f = .error e) := by
  by_cases h0 : v = 0
  · subst h0
    have herr : split_motion_photo_jpg f = .error .notMotionPhoto := by
      simp [split_motion_photo_jpg, hdet]
    refine ⟨?_, ?_, ?_⟩
    · rw [herr]
      constructor
      · rintro ⟨s, vd, h⟩; exact absurd h (by simp)
      · rintro ⟨h, _⟩; omega
    · intro s vd h; rw [herr] at h; exact absurd h (by simp)
    · intro _; exact ⟨.notMotionPhoto, herr⟩
  · by_cases hle : f.bytes.length ≤ v
    · have herr : split_motion_photo_jpg f = .error .invalidSize := by
        simp [split_motion_photo_jpg, hdet, h0, hle]
      refine ⟨?_, ?_, ?_⟩
      · rw [herr]
        constructor
        · rintro ⟨s, vd, h⟩; exact absurd h (by simp)
        · rintro ⟨_, h⟩; omega
      · intro s vd h; rw [herr] at h; exact absurd h (by simp)
      · intro _; exact ⟨.invalidSize, herr⟩
    · have hlt : v < f.bytes.length := by omega
      have hdroplen : (f.bytes.drop (f.bytes.length - v)).length = v := by
        rw [List.length_drop]; omega
      have hres : split_motion_photo_jpg f =
          .ok (f.bytes.take (f.bytes.length - v), f.bytes.drop (f.bytes.length - v)) := by
        simp only [split_motion_photo_jpg, hdet, if_neg h0, if_neg hle, hdroplen,
          if_neg (by omega : ¬ v ≠ v)]
      refine ⟨?_, ?_, ?_⟩
      · exact ⟨fun _ => ⟨by omega, hlt⟩, fun _ => ⟨_, _, hres⟩⟩
      · intro s vd h
        rw [hres] at h
        obtain ⟨hs, hvd⟩ := Prod.mk.inj (Except.ok.inj h)
        subst hs
        subst hvd
        rw [List.length_take, List.length_drop]
        refine ⟨by omega, by omega, by omega⟩
      · intro hcontr; exact absurd hcontr hle

/-- C3: tag priority. The probe order is the primary single-offset
scheme (`MicroVideoOffset`) first, then the directory-length scheme
(`Directory1Length`), then the vendor scalar/list scheme, and the first
all-digit value wins: any file whose primary offset tag holds a digit
string gets that value regardless of the directory tag, a file with
only the directory tag gets the directory value, and in particular
offset 100 plus directory length 200 yields 100 while directory length
200 alone yields 200. -/
theorem tag_priority :
    (∀ (m : ImageMeta) (v : List Char), m.microVideoOffset = some v →
      pyIsDigitL v = true → get_motion_photo_video_size m = some (digitsToNat v)) ∧
    (∀ (m : ImageMeta) (v : List Char), m.microVideoOffset = none →
      m.directory1Length = some v → pyIsDigitL v = true →
      get_motion_photo_video_size m = some (digitsToNat v)) ∧
    get_motion_photo_video_size
      { microVideoOffset := some "100".data, directory1Length := some "200".data } =
      some 100 ∧
    get_motion_photo_video_size { directory1Length := some "200".data } = some 200 := by
  refine ⟨?_, ?_, by decide, by decide⟩
  · intro m v hm hv
    have hline := parseDigitTagLine_value microVideoOffsetTag v (by decide) hv
    simp only [get_motion_photo_video_size, hm, optTagLine, List.cons_append,
      List.findSome?_cons, hline]
  · intro m v hnone hm hv
    have hline := parseDigitTagLine_value directory1LengthTag v (by decide) hv
    simp only [get_motion_photo_video_size, hnone, hm, optTagLine, List.nil_append,
      List.findSome?_cons, hline]

/-- C8: vendor list convention and absence semantics. When the video
length is recovered from the comma-separated vendor tag, the last
element of the list is taken; when no probed tag yields a parseable
value, detection returns `none` rather than raising. -/
theorem vendor_list_and_absence :
    (∀ m : ImageMeta, m.microVideoOffset = none → m.directory1Length = none →
      m.directoryItemLength = none → get_motion_photo_video_size m = none) ∧
    get_motion_photo_video_size { directoryItemLength := some "819282, 4319558".data } =
      some 4319558 ∧
    get_motion_photo_video_size { directoryItemLength := some "4319558".data } =
      some 4319558 ∧
    get_motion_photo_video_size { directoryItemLength := some "abc".data } = none := by
  refine ⟨?_, by decide, by decide, by decide⟩
  intro m h1 h2 h3
  simp [get_motion_photo_video_size, h1, h2, h3, optTagLine]

/-- Concrete converted image used to instantiate the round-trip theorem. -/
def roundTripImage : PyFile :=
  { path := "in.jpg".data, bytes := [1, 2, 3], meta := {} }

/-- Witness for C1 at a concrete image and video. -/
theorem create_then_split_round_trip_witness :
    split_motion_photo_jpg (create_motion_photo roundTripImage [9, 9] "out.jpg".data) =
      .ok (roundTripImage.bytes, [9, 9]) ∧
    (create_motion_photo roundTripImage [9, 9] "out.jpg".data).bytes.drop
      ((create_motion_photo roundTripImage [9, 9] "out.jpg".data).bytes.length -
        ([9, 9] : List Nat).length) = [9, 9] ∧
    (create_motion_photo roundTripImage [9, 9] "out.jpg".data).bytes.take
      ((create_motion_photo roundTripImage [9, 9] "out.jpg".data).bytes.length -
        ([9, 9] : List Nat).length) = roundTripImage.bytes :=
  create_then_split_round_trip roundTripImage [9, 9] "out.jpg".data
    (by decide) (by decide)

/-- Concrete motion-photo file with declared offset 2 and five bytes. -/
def splitSampleFile : PyFile :=
  { path := "a.jpg".data, bytes := [10, 20, 30, 40, 50],
    meta := { microVideoOffset := some "2".data } }

/-- Witness for C2 at a concrete file whose declared offset is 2. -/
theorem split_size_invariant_witness :
    ((∃ s vd, split_motion_photo_jpg splitSampleFile = .ok (s, vd)) ↔
      0 < 2 ∧ 2 < splitSampleFile.bytes.length) ∧
    (∀ s vd, split_motion_photo_jpg splitSampleFile = .ok (s, vd) →
      s.length = splitSampleFile.bytes.length - 2 ∧ vd.length = 2 ∧
      s.length + vd.length = splitSampleFile.bytes.length) ∧
    (splitSampleFile.bytes.length ≤ 2 →
      ∃ e, split_motion_photo_jpg splitSampleFile = .error e) :=
  split_size_invariant splitSampleFile 2 (by decide)

/-- Concrete file carrying both the primary and the vendor scheme. -/
def priorityMetaA : ImageMeta :=
  { microVideoOffset := some "77".data, directoryItemLength := some "88".data }

/-- Concrete file carrying only the directory-length scheme. -/
def priorityMetaB : ImageMeta := { directory1Length := some "55".data }

/-- Witness for C3 at concrete tag combinations. -/
theorem tag_priority_witness :
    get_motion_photo_video_size priorityMetaA = some (digitsToNat "77".data) ∧
    get_motion_photo_video_size priorityMetaB = some (digitsToNat "55".data) :=
  ⟨tag_priority.1 priorityMetaA "77".data rfl (by decide),
   tag_priority.2.1 priorityMetaB "55".data rfl rfl (by decide)⟩

/-- Witness for C8 at a file carrying no offset tag at all. -/
theorem vendor_list_and_absence_witness :
    get_motion_photo_video_size ({} : ImageMeta) = none :=
  vendor_list_and_absence.1 {} rfl rfl rfl

/-- Lowercase mapping for ASCII letters, the model of Python `str.lower`
on the paths and tag values this program handles. -/
def lowChar (c : Char) : Char :=
  if 65 ≤ c.toNat ∧ c.toNat ≤ 90 then Char.ofNat (c.toNat + 32) else c

/-- Model of Python `str.lower`. -/
def pyLower (l : List Char) : List Char := l.map lowChar

/-- Model of Python `str.endswith`. -/
def pyEndsWith (s pat : List Char) : Bool :=
  decide (pat.length ≤ s.length) && decide (s.drop (s.length - pat.length) = pat)

/-- Does `pat` start the list? Helper for the substring test. -/
def listStartsWith : List Char → List Char → Bool
  | _, [] => true
  | [], _ :: _ => false
  | c :: cs, p :: ps => c = p && listStartsWith cs ps

/-- Model of Python `pat in s` substring containment. -/
def listContainsSub : List Char → List Char → Bool
  | [], pat => pat.isEmpty
  | c :: rest, pat => listStartsWith (c :: rest) pat || listContainsSub rest pat

/-- Model of `utils._read_exiftool_values`: the stripped, nonempty
output lines for the present tags, in probe order. -/
def readTagValues (vals : List (Option (List Char))) : List (List Char) :=
  ((vals.filterMap id).map pyStrip).filter (fun l => !l.isEmpty)

/-- The case-insensitive substring set signalling HDR in
`utils._is_likely_hdr_heic`. -/
def hdrSubstringHit (v : List Char) : Bool :=
  listContainsSub (pyLower v) "hdrgainmap".data ||
  listContainsSub (pyLower v) "st 2084".data ||
  listContainsSub (pyLower v) "bt.2100".data

/-- Model of `utils._is_likely_hdr_heic`: HEIC/HEIF extension plus one
of the gain-map / transfer-characteristic tag values containing an HDR
marker substring. -/
def _is_likely_hdr_heic (f : PyFile) : Bool :=
  let lower := pyLower f.path
  if !(pyEndsWith lower ".heic".data || pyEndsWith lower ".heif".data) then false
  else
    (readTagValues
      [f.meta.hdrGainMapVersion, f.meta.auxiliaryImageType,
       f.meta.transferCharacteristics]).any hdrSubstringHit

/-- Model of `utils._is_likely_ultrahdr_jpg`: JPEG extension plus
either a present gain-map-version value or a multi-image count above 1.
Mirrors the code's `values[:1]` / `values[1:]` slicing of the list of
present values. -/
def _is_likely_ultrahdr_jpg (f : PyFile) : Bool :=
  let lower := pyLower f.path
  if !(pyEndsWith lower ".jpg".data || pyEndsWith lower ".jpeg".data) then false
  else
    let values := readTagValues [f.meta.hdrGainMapVersion, f.meta.mpfNumberOfImages]
    if (values.take 1).any (fun v => !(pyStrip v).isEmpty) then true
    else (values.drop 1).any (fun v => pyIsDigitL v && decide (1 < digitsToNat v))

/-- Outcome of one enhanced (gain-map) conversion attempt:
the helper returned `True`, returned `False` because a required tool is
absent, or raised (missing auxiliary image, nonzero tool exit, ...). -/
inductive EnhOutcome where
  | ok
  | toolsMissing
  | raised
deriving DecidableEq

/-- Availability and outcomes of the external collaborators for one
job: which tool invocations succeed. `enhHeicToJpg` and `enhJpgToHeic`
summarise the enhanced gain-map helpers; the boolean fields model the
`run_command` exit status of the named required tool. -/
structure ToolEnv where
  enhHeicToJpg : EnhOutcome := .toolsMissing
  enhJpgToHeic : EnhOutcome := .toolsMissing
  magickOk : Bool := true
  exiftoolOk : Bool := true
  ffmpegOk : Bool := true
  avfAvailable : Bool := false
  avfWriteOk : Bool := false
  appleIndexWritable : Bool := true
  hasMakernotesBin : Bool := true
deriving DecidableEq

/-- Model of `utils._copy_metadata_with_normalized_orientation`: copy
all tags from the source, then delete the orientation tag and set it
numerically to 1 ("Horizontal (normal)"). -/
def _copy_metadata_with_normalized_orientation (source : ImageMeta) : ImageMeta :=
  { source with orientation := some 1 }

/-- Model of `utils.convert_heic_to_jpg`: when the input looks like an
HDR HEIC, try the Ultra HDR path (any exception is caught, a `False`
return falls through); otherwise or on failure run the magick SDR path
followed by the metadata copy that normalizes orientation. `EnhOutcome.ok`
covers the whole successful enhanced helper, whose last step is the
same normalizing metadata copy. -/
def convert_heic_to_jpg (f : PyFile) (env : ToolEnv) : Except PyErr ImageMeta :=
  let fallback : Except PyErr ImageMeta :=
    if env.magickOk then
      if env.exiftoolOk then .ok (_copy_metadata_with_normalized_orientation f.meta)
      else .error .calledProcessError
    else .error .calledProcessError
  if _is_likely_hdr_heic f then
    match env.enhHeicToJpg with
    | .ok => .ok (_copy_metadata_with_normalized_orientation f.meta)
    | .toolsMissing => fallback
    | .raised => fallback
  else fallback

/-- The exiftool tag deletions of `utils.convert_jpg_to_heic`: after
copying everything from the source, the Motion Photo tags and the
Container directory are removed. The vendor `DirectoryItemLength` and
the orientation tag are not in the deletion list. -/
def stripMotionTags (m : ImageMeta) : ImageMeta :=
  { m with
    exifMicroVideo := none
    exifEmbeddedVideo := none
    exifXiaomiMicroVideo := none
    microVideo := none
    microVideoVersion := none
    microVideoOffset := none
    microVideoTsUs := none
    motionPhoto := none
    motionPhotoVersion := none
    motionPhotoTsUs := none
    directory0Mime := none
    directory0Semantic := none
    directory1Mime := none
    directory1Semantic := none
    directory1Length := none
    directory1Padding := none }

/-- Model of `utils.convert_jpg_to_heic`: when the input looks like an
Ultra HDR JPEG, try the enhanced heif-enc path (exceptions caught, a
`False` return falls through to magick); then copy all metadata from
`metadata_source` (default: the input itself) while deleting the Motion
Photo tags. No step of this function resets the orientation tag. -/
def convert_jpg_to_heic (jpg : PyFile) (metadata_source : Option ImageMeta)
    (env : ToolEnv) : Except PyErr ImageMeta :=
  let used_enhanced :=
    if _is_likely_ultrahdr_jpg jpg then
      match env.enhJpgToHeic with
      | .ok => true
      | .toolsMissing => false
      | .raised => false
    else false
  if used_enhanced = false && env.magickOk = false then .error .calledProcessError
  else if env.exiftoolOk = false then .error .calledProcessError
  else .ok (stripMotionTags (metadata_source.getD jpg.meta))

/-- C5 (amended): when the enhanced gain-map path fails for any reason
(missing tool chain or a caught exception) the job still completes via
the standard re-encode path, and in the HEIC-to-JPG direction the
fallback output's orientation tag reads 1 ("normal"); in the
JPG-to-HEIC direction, however, the fallback copies the source's
orientation tag unchanged, with no reset. -/
theorem hdr_fallback_orientation :
    (∀ (f : PyFile) (env : ToolEnv), env.magickOk = true → env.exiftoolOk = true →
      env.enhHeicToJpg ≠ .ok →
      convert_heic_to_jpg f env = .ok (_copy_metadata_with_normalized_orientation f.meta) ∧
      (_copy_metadata_with_normalized_orientation f.meta).orientation = some 1) ∧
    (∀ (jpg : PyFile) (src : ImageMeta) (env : ToolEnv),
      env.magickOk = true → env.exiftoolOk = true → env.enhJpgToHeic ≠ .ok →
      convert_jpg_to_heic jpg (some src) env = .ok (stripMotionTags src) ∧
      (stripMotionTags src).orientation = src.orientation) := by
  constructor
  · intro f env hm he henh
    refine ⟨?_, rfl⟩
    cases houtcome : env.enhHeicToJpg with
    | ok => exact absurd houtcome henh
    | toolsMissing => simp [convert_heic_to_jpg, hm, he, houtcome]
    | raised => simp [convert_heic_to_jpg, hm, he, houtcome]
  · intro jpg src env hm he henh
    refine ⟨?_, rfl⟩
    cases houtcome : env.enhJpgToHeic with
    | ok => exact absurd houtcome henh
    | toolsMissing =>
      simp only [convert_jpg_to_heic, houtcome, hm, he]
      simp
    | raised =>
      simp only [convert_jpg_to_heic, houtcome, hm, he]
      simp

/-- Concrete Ultra HDR JPEG whose source orientation tag is 6
(Rotate 90 CW). -/
def ultraHdrJpgSample : PyFile :=
  { path := "in.jpg".data, bytes := [1, 2, 3],
    meta := { hdrGainMapVersion := some "1.0".data, orientation := some 6 } }

/-- Environment where the enhanced JPG-to-HEIC path raises. -/
def enhJpgFailEnv : ToolEnv := { enhJpgToHeic := .raised }

/-- Counterexample for C5 as stated: a JPG-to-HEIC job whose enhanced
gain-map path fails completes via the standard path, but its output's
orientation tag is the source's 6, not "normal". -/
theorem hdr_fallback_orientation_counterexample :
    (convert_jpg_to_heic ultraHdrJpgSample (some ultraHdrJpgSample.meta)
      enhJpgFailEnv).map (fun m => m.orientation) = .ok (some 6) ∧
    (some 6 : Option Nat) ≠ some 1 := by
  refine ⟨rfl, by decide⟩

/-- Concrete HDR HEIC with a non-normal source orientation. -/
def hdrHeicSample : PyFile :=
  { path := "in.heic".data, bytes := [1],
    meta := { hdrGainMapVersion := some "1.0".data, orientation := some 6 } }

/-- Environment where the enhanced HEIC-to-JPG path raises. -/
def enhHeicFailEnv : ToolEnv := { enhHeicToJpg := .raised }

/-- Hex digit characters, lowercase as in Python's uuid rendering. -/
def hexChar (d : Nat) : Char :=
  match d with
  | 0 => '0' | 1 => '1' | 2 => '2' | 3 => '3' | 4 => '4'
  | 5 => '5' | 6 => '6' | 7 => '7' | 8 => '8' | 9 => '9'
  | 10 => 'a' | 11 => 'b' | 12 => 'c' | 13 => 'd' | 14 => 'e' | 15 => 'f'
  | _ => '*'

/-- Canonical lowercase 8-4-4-4-12 rendering of the 32 hex digits of a
UUID, the model of Python `str(uuid.uuid4())` where the digit list is
the random draw. -/
def uuidStr (ds : List Nat) : List Char :=
  let h := ds.map hexChar
  h.take 8 ++ '-' :: ((h.drop 8).take 4) ++ '-' :: ((h.drop 12).take 4) ++
    '-' :: ((h.drop 16).take 4) ++ '-' :: (h.drop 20)

/-- Uppercase mapping for ASCII letters, the model of Python `str.upper`. -/
def upChar (c : Char) : Char :=
  if 97 ≤ c.toNat ∧ c.toNat ≤ 122 then Char.ofNat (c.toNat - 32) else c

/-- Model of Python `str.upper`. -/
def pyUpper (l : List Char) : List Char := l.map upChar

/-- Uppercase hexadecimal digit test. -/
def isUpperHexChar (c : Char) : Bool :=
  (48 ≤ c.toNat && c.toNat ≤ 57) || (65 ≤ c.toNat && c.toNat ≤ 70)

/-- The canonical uppercase 8-4-4-4-12 UUID string shape. -/
def isCanonicalUuidUpper (l : List Char) : Prop :=
  ∃ g1 g2 g3 g4 g5 : List Char,
    g1.length = 8 ∧ g2.length = 4 ∧ g3.length = 4 ∧ g4.length = 4 ∧ g5.length = 12 ∧
    (∀ c ∈ g1 ++ g2 ++ g3 ++ g4 ++ g5, isUpperHexChar c = true) ∧
    l = g1 ++ '-' :: g2 ++ '-' :: g3 ++ '-' :: g4 ++ '-' :: g5

/-- Metadata of the output MOV: the still-image-time marker written by
the AVFoundation writer (µs) and the QuickTime Keys content
identifier. -/
structure MovMeta where
  stillTimeUs : Option Int := none
  contentIdentifier : Option (List Char) := none
deriving DecidableEq

/-- Model of `utils.convert_mp4_to_mov`: with a timestamp and a usable
AVFoundation writer (`avfAvailable` covers macOS plus the writer script
plus xcrun/swift), the coerced still time and the content identifier
are written; with no timestamp, or when the writer is unavailable or
fails, the ffmpeg copy path writes neither. -/
def convert_mp4_to_mov (presentation_timestamp_us : Option PyVal)
    (content_uuid : Option (List Char)) (env : ToolEnv) : Except PyErr MovMeta :=
  let ffmpegCopy : Except PyErr MovMeta :=
    if env.ffmpegOk then .ok {} else .error .calledProcessError
  match presentation_timestamp_us with
  | none => ffmpegCopy
  | some v =>
    if env.avfAvailable then
      if env.avfWriteOk then
        .ok { stillTimeUs := some (_safe_non_negative_int v 0)
              contentIdentifier := content_uuid }
      else ffmpegCopy
    else ffmpegCopy

/-- Model of `utils.set_heic_content_identifier`. -/
def set_heic_content_identifier (m : ImageMeta) (content_uuid : List Char)
    (env : ToolEnv) : Except PyErr ImageMeta :=
  if env.exiftoolOk then .ok { m with contentIdentifier := some content_uuid }
  else .error .calledProcessError

/-- Model of `utils.set_heic_live_photo_video_index`: the best-effort
Apple `LivePhotoVideoIndex` write (`check=False`, modelled by
`appleIndexWritable`), then the required XMP fallback fields, all with
the coerced timestamp. -/
def set_heic_live_photo_video_index (m : ImageMeta) (v : PyVal)
    (env : ToolEnv) : Except PyErr ImageMeta :=
  let ts_us := _safe_non_negative_int v 0
  let m1 :=
    if env.appleIndexWritable then
      { m with livePhotoVideoIndex := some (natDecStr ts_us.toNat) }
    else m
  if env.exiftoolOk then
    .ok { m1 with
          motionPhotoTsUs := some (natDecStr ts_us.toNat)
          microVideoTsUs := some (natDecStr ts_us.toNat) }
  else .error .calledProcessError

/-- Model of `utils.set_mov_content_identifier`. -/
def set_mov_content_identifier (m : MovMeta) (content_uuid : List Char)
    (env : ToolEnv) : Except PyErr MovMeta :=
  if env.exiftoolOk then .ok { m with contentIdentifier := some content_uuid }
  else .error .calledProcessError

/-- Model of `utils.inject_heic_makernotes_from_file`. -/
def inject_heic_makernotes_from_file (m : ImageMeta) (env : ToolEnv) :
    Except PyErr ImageMeta :=
  if env.exiftoolOk then .ok { m with makerNotesInjected := true }
  else .error .calledProcessError

/-- Temp file name used for the split static image. -/
def staticJpgName : List Char := "static.jpg".data

/-- Final stamping steps of `main.jpg_motion_to_heic_mov`: write the
MOV (passing the cover timestamp and identifier to the video writer),
stamp the shared identifier on the HEIC, store the cover timestamp on
the HEIC only when one resolved, then stamp the identifier on the MOV. -/
def jpg_motion_finalize (heic1 : ImageMeta) (cover_ts_us : Option Nat)
    (content_uuid : List Char) (env : ToolEnv) :
    Except PyErr (ImageMeta × MovMeta) :=
  match convert_mp4_to_mov (cover_ts_us.map (fun t => PyVal.int (t : Int)))
    (some content_uuid) env with
  | .error e => .error e
  | .ok mov0 =>
    match set_heic_content_identifier heic1 content_uuid env with
    | .error e => .error e
    | .ok heic2 =>
      match
        (match cover_ts_us with
         | none => Except.ok heic2
         | some t => set_heic_live_photo_video_index heic2 (PyVal.int (t : Int)) env) with
      | .error e => .error e
      | .ok heic3 =>
        match set_mov_content_identifier mov0 content_uuid env with
        | .error e => .error e
        | .ok mov1 => .ok (heic3, mov1)

/-- Model of `main.jpg_motion_to_heic_mov`: check the detected video
size, draw the content identifier once (the `uuid.uuid4()` draw is the
`uuidDigits` argument) and uppercase it, read the cover timestamp from
the source's XMP fields, split, convert the static image to HEIC with
the original JPG as metadata source, inject MakerNotes when the binary
blob exists, then finish with `jpg_motion_finalize`. The split static
part keeps the source's metadata record (it is a byte-prefix of the
source file). -/
def jpg_motion_to_heic_mov (src : PyFile) (uuidDigits : List Nat) (env : ToolEnv) :
    Except PyErr (ImageMeta × MovMeta) :=
  match get_motion_photo_video_size src.meta with
  | none => .error .notMotionPhoto
  | some video_size =>
    if video_size = 0 then .error .notMotionPhoto
    else
      let content_uuid := pyUpper (uuidStr uuidDigits)
      let cover_ts_us := get_motion_photo_presentation_timestamp_us src.meta
      match split_motion_photo_jpg src with
      | .error e => .error e
      | .ok split_result =>
        let staticFile : PyFile :=
          { path := staticJpgName, bytes := split_result.1, meta := src.meta }
        match convert_jpg_to_heic staticFile (some src.meta) env with
        | .error e => .error e
        | .ok heic0 =>
          match
            (if env.hasMakernotesBin then inject_heic_makernotes_from_file heic0 env
             else .ok heic0) with
          | .error e => .error e
          | .ok heic1 => jpg_motion_finalize heic1 cover_ts_us content_uuid env

section PipelineInversion

theorem safe_int_coe (t : Nat) :
    _safe_non_negative_int (PyVal.int (t : Int)) 0 = (t : Int) := by
  have htn : ((t : Int)).toNat = t := by omega
  have hlt : ¬ ((t : Int) < 0) := by omega
  simp only [_safe_non_negative_int, pyStrv, intDecStr, if_neg hlt, htn,
    pyStrip_digits _ (pyIsDigitL_natDecStr t), pyParseInt_natDecStr]
  rw [if_pos (by omega)]

theorem set_heic_content_identifier_ok (m : ImageMeta) (u : List Char)
    (env : ToolEnv) (r : ImageMeta)
    (h : set_heic_content_identifier m u env = .ok r) :
    r = { m with contentIdentifier := some u } := by
  unfold set_heic_content_identifier at h
  cases he : env.exiftoolOk with
  | false => rw [he] at h; simp at h
  | true => rw [he] at h; simp at h; exact h.symm

theorem set_mov_content_identifier_ok (m : MovMeta) (u : List Char)
    (env : ToolEnv) (r : MovMeta)
    (h : set_mov_content_identifier m u env = .ok r) :
    r = { m with contentIdentifier := some u } := by
  unfold set_mov_content_identifier at h
  cases he : env.exiftoolOk with
  | false => rw [he] at h; simp at h
  | true => rw [he] at h; simp at h; exact h.symm

theorem inject_heic_makernotes_from_file_ok (m : ImageMeta) (env : ToolEnv)
    (r : ImageMeta) (h : inject_heic_makernotes_from_file m env = .ok r) :
    r = { m with makerNotesInjected := true } := by
  unfold inject_heic_makernotes_from_file at h
  cases he : env.exiftoolOk with
  | false => rw [he] at h; simp at h
  | true => rw [he] at h; simp at h; exact h.symm

theorem set_heic_live_photo_video_index_ok (m : ImageMeta) (v : PyVal)
    (env : ToolEnv) (r : ImageMeta)
    (h : set_heic_live_photo_video_index m v env = .ok r) :
    r.motionPhotoTsUs = some (natDecStr (_safe_non_negative_int v 0).toNat) ∧
    r.microVideoTsUs = some (natDecStr (_safe_non_negative_int v 0).toNat) ∧
    r.contentIdentifier = m.contentIdentifier ∧
    r.livePhotoVideoIndex =
      (if env.appleIndexWritable then
        some (natDecStr (_safe_non_negative_int v 0).toNat)
       else m.livePhotoVideoIndex) := by
  unfold set_heic_live_photo_video_index at h
  cases he : env.exiftoolOk with
  | false => rw [he] at h; simp at h
  | true =>
    rw [he] at h
    simp only [if_true] at h
    cases ha : env.appleIndexWritable with
    | false =>
      rw [ha] at h
      simp only [Bool.false_eq_true, if_false] at h
      simp at h
      rw [← h]
      simp [ha]
    | true =>
      rw [ha] at h
      simp only [if_true] at h
      simp at h
      rw [← h]
      simp [ha]

theorem convert_jpg_to_heic_ok (jpg : PyFile) (ms : Option ImageMeta)
    (env : ToolEnv) (r : ImageMeta)
    (h : convert_jpg_to_heic jpg ms env = .ok r) :
    r = stripMotionTags (ms.getD jpg.meta) := by
  simp only [convert_jpg_to_heic] at h
  repeat' split at h
  all_goals first
  | exact (Except.ok.inj h).symm
  | simp at h

theorem convert_jpg_to_heic_needs_exiftool (jpg : PyFile) (ms : Option ImageMeta)
    (env : ToolEnv) (r : ImageMeta)
    (h : convert_jpg_to_heic jpg ms env = .ok r) :
    env.exiftoolOk = true := by
  simp only [convert_jpg_to_heic] at h
  repeat' split at h
  all_goals simp_all

theorem convert_mp4_to_mov_ok_none (u : Option (List Char)) (env : ToolEnv)
    (r : MovMeta) (h : convert_mp4_to_mov none u env = .ok r) :
    r = {} := by
  simp only [convert_mp4_to_mov] at h
  split at h
  · exact (Except.ok.inj h).symm
  · simp at h

theorem convert_mp4_to_mov_ok_some (v : PyVal) (u : Option (List Char))
    (env : ToolEnv) (r : MovMeta) (h : convert_mp4_to_mov (some v) u env = .ok r) :
    (env.avfAvailable = true ∧ env.avfWriteOk = true ∧
      r = { stillTimeUs := some (_safe_non_negative_int v 0),
            contentIdentifier := u }) ∨
    ((env.avfAvailable = false ∨ env.avfWriteOk = false) ∧ r = {}) := by
  simp only [convert_mp4_to_mov] at h
  cases ha : env.avfAvailable with
  | false =>
    rw [ha] at h
    simp only [Bool.false_eq_true, if_false] at h
    split at h
    · right; exact ⟨Or.inl rfl, (Except.ok.inj h).symm⟩
    · simp at h
  | true =>
    rw [ha] at h
    simp only [if_true] at h
    cases hw : env.avfWriteOk with
    | false =>
      rw [hw] at h
      simp only [Bool.false_eq_true, if_false] at h
      split at h
      · right; exact ⟨Or.inr rfl, (Except.ok.inj h).symm⟩
      · simp at h
    | true =>
      rw [hw] at h
      simp only [if_true] at h
      left
      exact ⟨rfl, rfl, (Except.ok.inj h).symm⟩

theorem jpg_motion_finalize_fields (heic1 : ImageMeta) (cover : Option Nat)
    (u : List Char) (env : ToolEnv) (h : ImageMeta) (m : MovMeta)
    (hok : jpg_motion_finalize heic1 cover u env = .ok (h, m)) :
    h.contentIdentifier = some u ∧ m.contentIdentifier = some u ∧
    (cover = none →
      h.motionPhotoTsUs = heic1.motionPhotoTsUs ∧
      h.microVideoTsUs = heic1.microVideoTsUs ∧
      h.livePhotoVideoIndex = heic1.livePhotoVideoIndex ∧
      m.stillTimeUs = none) ∧
    (∀ t, cover = some t →
      h.motionPhotoTsUs = some (natDecStr t) ∧
      h.microVideoTsUs = some (natDecStr t) ∧
      (env.avfAvailable = true → env.avfWriteOk = true →
        m.stillTimeUs = some (t : Int)) ∧
      ((env.avfAvailable = true ∧ env.avfWriteOk = true) ∨ m.stillTimeUs = none)) := by
  cases cover with
  | none =>
    cases hmov : convert_mp4_to_mov none (some u) env with
    | error e => simp [jpg_motion_finalize, hmov] at hok
    | ok mov0 =>
      cases hsetc : set_heic_content_identifier heic1 u env with
      | error e => simp [jpg_motion_finalize, hmov, hsetc] at hok
      | ok heic2 =>
        cases hmovc : set_mov_content_identifier mov0 u env with
        | error e => simp [jpg_motion_finalize, hmov, hsetc, hmovc] at hok
        | ok mov1 =>
          have hpair : heic2 = h ∧ mov1 = m := by
            simpa [jpg_motion_finalize, hmov, hsetc, hmovc] using hok
          obtain ⟨hh, hm⟩ := hpair
          subst hh
          subst hm
          have hc2 := set_heic_content_identifier_ok heic1 u env _ hsetc
          have hmovf := set_mov_content_identifier_ok mov0 u env _ hmovc
          have hmov0 := convert_mp4_to_mov_ok_none (some u) env mov0 hmov
          subst hc2
          subst hmovf
          subst hmov0
          refine ⟨rfl, rfl, fun _ => ⟨rfl, rfl, rfl, rfl⟩, ?_⟩
          intro t ht
          exact absurd ht (by simp)
  | some t =>
    cases hmov : convert_mp4_to_mov (some (PyVal.int (t : Int))) (some u) env with
    | error e => simp [jpg_motion_finalize, hmov] at hok
    | ok mov0 =>
      cases hsetc : set_heic_content_identifier heic1 u env with
      | error e => simp [jpg_motion_finalize, hmov, hsetc] at hok
      | ok heic2 =>
        cases hidx : set_heic_live_photo_video_index heic2 (PyVal.int (t : Int)) env with
        | error e => simp [jpg_motion_finalize, hmov, hsetc, hidx] at hok
        | ok heic3 =>
          cases hmovc : set_mov_content_identifier mov0 u env with
          | error e => simp [jpg_motion_finalize, hmov, hsetc, hidx, hmovc] at hok
          | ok mov1 =>
            have hpair : heic3 = h ∧ mov1 = m := by
              simpa [jpg_motion_finalize, hmov, hsetc, hidx, hmovc] using hok
            obtain ⟨hh, hm⟩ := hpair
            subst hh
            subst hm
            have hc2 := set_heic_content_identifier_ok heic1 u env _ hsetc
            have hidxf := set_heic_live_photo_video_index_ok heic2 _ env _ hidx
            have hmovf := set_mov_content_identifier_ok mov0 u env _ hmovc
            have hsafe := safe_int_coe t
            have htn : ((t : Int)).toNat = t := by omega
            subst hmovf
            refine ⟨?_, rfl, ?_, ?_⟩
            · rw [hidxf.2.2.1, hc2]
            · intro hcontra; exact absurd hcontra (by simp)
            · intro t' ht'
              have htt : t = t' := Option.some.inj ht'
              subst htt
              refine ⟨?_, ?_, ?_, ?_⟩
              · have hfld := hidxf.1
                rw [hsafe, htn] at hfld
                exact hfld
              · have hfld := hidxf.2.1
                rw [hsafe, htn] at hfld
                exact hfld
              · intro ha hw
                rcases convert_mp4_to_mov_ok_some _ _ _ _ hmov with
                  ⟨_, _, hmov0⟩ | ⟨hflags, hmov0⟩
                · subst hmov0
                  show some (_safe_non_negative_int (PyVal.int (t : Int)) 0) =
                    some (t : Int)
                  rw [hsafe]
                · rcases hflags with hf | hf
                  · rw [ha] at hf; cases hf
                  · rw [hw] at hf; cases hf
              · rcases convert_mp4_to_mov_ok_some _ _ _ _ hmov with
                  ⟨ha, hw, hmov0⟩ | ⟨_, hmov0⟩
                · exact Or.inl ⟨ha, hw⟩
                · subst hmov0
                  exact Or.inr rfl

theorem jpg_motion_to_heic_mov_fields (src : PyFile) (ds : List Nat) (env : ToolEnv)
    (h : ImageMeta) (m : MovMeta)
    (hok : jpg_motion_to_heic_mov src ds env = .ok (h, m)) :
    h.contentIdentifier = some (pyUpper (uuidStr ds)) ∧
    m.contentIdentifier = some (pyUpper (uuidStr ds)) ∧
    (get_motion_photo_presentation_timestamp_us src.meta = none →
      h.motionPhotoTsUs = none ∧ h.microVideoTsUs = none ∧
      h.livePhotoVideoIndex = src.meta.livePhotoVideoIndex ∧
      m.stillTimeUs = none) ∧
    (∀ t, get_motion_photo_presentation_timestamp_us src.meta = some t →
      h.motionPhotoTsUs = some (natDecStr t) ∧
      h.microVideoTsUs = some (natDecStr t) ∧
      (env.avfAvailable = true → env.avfWriteOk = true →
        m.stillTimeUs = some (t : Int)) ∧
      ((env.avfAvailable = true ∧ env.avfWriteOk = true) ∨ m.stillTimeUs = none)) := by
  cases hdet : get_motion_photo_video_size src.meta with
  | none => simp [jpg_motion_to_heic_mov, hdet] at hok
  | some vs =>
    by_cases hv0 : vs = 0
    · simp [jpg_motion_to_heic_mov, hdet, hv0] at hok
    · cases hsplit : split_motion_photo_jpg src with
      | error e => simp [jpg_motion_to_heic_mov, hdet, hv0, hsplit] at hok
      | ok split_result =>
        cases hconv : convert_jpg_to_heic
            { path := staticJpgName, bytes := split_result.1, meta := src.meta }
            (some src.meta) env with
        | error e => simp [jpg_motion_to_heic_mov, hdet, hv0, hsplit, hconv] at hok
        | ok heic0 =>
          have hheic0 : heic0 = stripMotionTags src.meta :=
            convert_jpg_to_heic_ok _ _ _ _ hconv
          cases hmk : env.hasMakernotesBin with
          | false =>
            have hfin : jpg_motion_finalize heic0
                (get_motion_photo_presentation_timestamp_us src.meta)
                (pyUpper (uuidStr ds)) env = .ok (h, m) := by
              simpa [jpg_motion_to_heic_mov, hdet, hv0, hsplit, hconv, hmk] using hok
            have hf := jpg_motion_finalize_fields _ _ _ _ _ _ hfin
            refine ⟨hf.1, hf.2.1, ?_, hf.2.2.2⟩
            intro hnone
            have h5 := hf.2.2.1 hnone
            rw [hheic0] at h5
            simpa [stripMotionTags] using h5
          | true =>
            cases hinj : inject_heic_makernotes_from_file heic0 env with
            | error e =>
              simp [jpg_motion_to_heic_mov, hdet, hv0, hsplit, hconv, hmk, hinj] at hok
            | ok heic1 =>
              have hheic1 : heic1 = { heic0 with makerNotesInjected := true } :=
                inject_heic_makernotes_from_file_ok _ _ _ hinj
              have hfin : jpg_motion_finalize heic1
                  (get_motion_photo_presentation_timestamp_us src.meta)
                  (pyUpper (uuidStr ds)) env = .ok (h, m) := by
                simpa [jpg_motion_to_heic_mov, hdet, hv0, hsplit, hconv, hmk, hinj]
                  using hok
              have hf := jpg_motion_finalize_fields _ _ _ _ _ _ hfin
              refine ⟨hf.1, hf.2.1, ?_, hf.2.2.2⟩
              intro hnone
              have h5 := hf.2.2.1 hnone
              rw [hheic1, hheic0] at h5
              simpa [stripMotionTags] using h5

theorem upChar_dash : upChar '-' = '-' := by decide

theorem isUpperHexChar_upChar_hexChar (d : Nat) (hd : d < 16) :
    isUpperHexChar (upChar (hexChar d)) = true := by
  interval_cases d <;> decide

theorem isCanonicalUuidUpper_pyUpper_uuidStr (ds : List Nat)
    (hlen : ds.length = 32) (hdig : ∀ d ∈ ds, d < 16) :
    isCanonicalUuidUpper (pyUpper (uuidStr ds)) := by
  have hhlen : (ds.map hexChar).length = 32 := by simp [hlen]
  have haux : ∀ seg : List Char, (∀ x ∈ seg, x ∈ ds.map hexChar) →
      ∀ c ∈ pyUpper seg, isUpperHexChar c = true := by
    intro seg hsub c hc
    rw [pyUpper, List.mem_map] at hc
    obtain ⟨x, hx, rfl⟩ := hc
    have := hsub x hx
    rw [List.mem_map] at this
    obtain ⟨d, hd, rfl⟩ := this
    exact isUpperHexChar_upChar_hexChar d (hdig d hd)
  refine ⟨pyUpper ((ds.map hexChar).take 8),
    pyUpper (((ds.map hexChar).drop 8).take 4),
    pyUpper (((ds.map hexChar).drop 12).take 4),
    pyUpper (((ds.map hexChar).drop 16).take 4),
    pyUpper ((ds.map hexChar).drop 20), ?_, ?_, ?_, ?_, ?_, ?_, ?_⟩
  · simp [pyUpper]; omega
  · simp [pyUpper]; omega
  · simp [pyUpper]; omega
  · simp [pyUpper]; omega
  · simp [pyUpper]; omega
  · intro c hc
    simp only [List.mem_append] at hc
    rcases hc with (((hc | hc) | hc) | hc) | hc
    · exact haux _ (fun x hx => List.take_subset _ _ hx) c hc
    · exact haux _ (fun x hx => List.drop_subset _ _ (List.take_subset _ _ hx)) c hc
    · exact haux _ (fun x hx => List.drop_subset _ _ (List.take_subset _ _ hx)) c hc
    · exact haux _ (fun x hx => List.drop_subset _ _ (List.take_subset _ _ hx)) c hc
    · exact haux _ (fun x hx => List.drop_subset _ _ hx) c hc
  · simp only [pyUpper, uuidStr, List.map_append, List.map_cons, upChar_dash]

/-- C6: identifier propagation. Every successful Motion-Photo-JPG to
Live-Photo job uses the single generated UUID draw, rendered as a
canonical uppercase 8-4-4-4-12 hex string, and writes that same string
verbatim to the image's content-identifier field and to the video's
content-identifier field. -/
theorem content_identifier_propagation (src : PyFile) (ds : List Nat) (env : ToolEnv)
    (h : ImageMeta) (m : MovMeta) (hlen : ds.length = 32) (hdig : ∀ d ∈ ds, d < 16)
    (hok : jpg_motion_to_heic_mov src ds env = .ok (h, m)) :
    h.contentIdentifier = some (pyUpper (uuidStr ds)) ∧
    m.contentIdentifier = some (pyUpper (uuidStr ds)) ∧
    isCanonicalUuidUpper (pyUpper (uuidStr ds)) := by
  have hf := jpg_motion_to_heic_mov_fields src ds env h m hok
  exact ⟨hf.1, hf.2.1, isCanonicalUuidUpper_pyUpper_uuidStr ds hlen hdig⟩

/-- C4 (amended): cover-timestamp storage in a Motion-Photo-JPG to
Live-Photo conversion. When no cover timestamp resolves from the
source, the conversion stores no timestamp at all: the output image's
XMP timestamp fields are absent (stripped, neither written back) and
its Apple index field is whatever the source carried, while the output
video has no still-image-time marker — not a stored 0. When a
timestamp `t` does resolve, `t` is written to both image XMP fields
and, when the platform video writer is available and succeeds, to the
video. -/
theorem cover_timestamp_absent_storage (src : PyFile) (ds : List Nat) (env : ToolEnv)
    (h : ImageMeta) (m : MovMeta)
    (hok : jpg_motion_to_heic_mov src ds env = .ok (h, m)) :
    (get_motion_photo_presentation_timestamp_us src.meta = none →
      h.motionPhotoTsUs = none ∧ h.microVideoTsUs = none ∧
      h.livePhotoVideoIndex = src.meta.livePhotoVideoIndex ∧
      m.stillTimeUs = none) ∧
    (∀ t, get_motion_photo_presentation_timestamp_us src.meta = some t →
      h.motionPhotoTsUs = some (natDecStr t) ∧
      h.microVideoTsUs = some (natDecStr t) ∧
      (env.avfAvailable = true → env.avfWriteOk = true →
        m.stillTimeUs = some (t : Int))) := by
  have hf := jpg_motion_to_heic_mov_fields src ds env h m hok
  refine ⟨hf.2.2.1, fun t ht => ?_⟩
  have h4 := hf.2.2.2 t ht
  exact ⟨h4.1, h4.2.1, h4.2.2.1⟩

/-- Concrete motion photo with a declared offset and no timestamp tags. -/
def motionSrcNoTs : PyFile :=
  { path := "a.jpg".data, bytes := [10, 20, 30, 40, 50],
    meta := { microVideoOffset := some "2".data } }

/-- A fixed all-zero UUID draw. -/
def uuidZeros : List Nat := List.replicate 32 0

/-- Fully working tool environment including the platform video writer. -/
def liveJobEnv : ToolEnv := { avfAvailable := true, avfWriteOk := true }

/-- Counterexample for C4 as stated: a conversion in which no cover
timestamp resolves succeeds with no timestamp stored anywhere — the
image's XMP timestamp fields and Apple index field and the video's
still-time marker are all absent, not 0. -/
theorem timestamp_default_counterexample :
    (jpg_motion_to_heic_mov motionSrcNoTs uuidZeros liveJobEnv).map
      (fun p => (p.1.motionPhotoTsUs, p.1.microVideoTsUs,
                 p.1.livePhotoVideoIndex, p.2.stillTimeUs)) =
      .ok (none, none, none, none) ∧
    (none : Option (List Char)) ≠ some (natDecStr 0) :=
  ⟨rfl, by simp⟩

/-- The canonical string of the all-zero UUID. -/
def uuidZerosStr : List Char := "00000000-0000-0000-0000-000000000000".data

/-- Image metadata produced by the concrete conversion job. -/
def liveOutHeic : ImageMeta :=
  { makerNotesInjected := true, contentIdentifier := some uuidZerosStr }

/-- Video metadata produced by the concrete conversion job. -/
def liveOutMov : MovMeta := { contentIdentifier := some uuidZerosStr }

/-- Witness for C6 at a concrete job. -/
theorem content_identifier_propagation_witness :
    liveOutHeic.contentIdentifier = some (pyUpper (uuidStr uuidZeros)) ∧
    liveOutMov.contentIdentifier = some (pyUpper (uuidStr uuidZeros)) ∧
    isCanonicalUuidUpper (pyUpper (uuidStr uuidZeros)) :=
  content_identifier_propagation motionSrcNoTs uuidZeros liveJobEnv liveOutHeic
    liveOutMov (by decide) (by decide) rfl

/-- Witness for C4 (amended) at the same concrete job. -/
theorem cover_timestamp_absent_storage_witness :
    (get_motion_photo_presentation_timestamp_us motionSrcNoTs.meta = none →
      liveOutHeic.motionPhotoTsUs = none ∧ liveOutHeic.microVideoTsUs = none ∧
      liveOutHeic.livePhotoVideoIndex = motionSrcNoTs.meta.livePhotoVideoIndex ∧
      liveOutMov.stillTimeUs = none) ∧
    (∀ t, get_motion_photo_presentation_timestamp_us motionSrcNoTs.meta = some t →
      liveOutHeic.motionPhotoTsUs = some (natDecStr t) ∧
      liveOutHeic.microVideoTsUs = some (natDecStr t) ∧
      (liveJobEnv.avfAvailable = true → liveJobEnv.avfWriteOk = true →
        liveOutMov.stillTimeUs = some (t : Int))) :=
  cover_timestamp_absent_storage motionSrcNoTs uuidZeros liveJobEnv liveOutHeic
    liveOutMov rfl

/-- C10: timestamp coercion at the tag-writing boundary. The coercion
`_safe_non_negative_int` never yields a negative value, maps every
unparseable or negative input to the default 0, and every timestamp the
tag writers emit — the Motion Photo injection fields, the Live Photo
index fields, and the MOV still-time — is exactly that coerced
non-negative value (or nothing at all for the MOV fallback path). -/
theorem timestamp_coercion_boundary :
    (∀ v : PyVal, 0 ≤ _safe_non_negative_int v 0) ∧
    (∀ v : PyVal, pyParseInt (pyStrip (pyStrv v)) = none →
      _safe_non_negative_int v 0 = 0) ∧
    (∀ (v : PyVal) (n : Int), pyParseInt (pyStrip (pyStrv v)) = some n → n < 0 →
      _safe_non_negative_int v 0 = 0) ∧
    (∀ (meta : ImageMeta) (vs : Nat) (v : PyVal),
      (inject_motion_photo_metadata meta vs v).motionPhotoTsUs =
        some (natDecStr (_safe_non_negative_int v 0).toNat) ∧
      (inject_motion_photo_metadata meta vs v).microVideoTsUs =
        some (natDecStr (_safe_non_negative_int v 0).toNat)) ∧
    (∀ (meta : ImageMeta) (v : PyVal) (env : ToolEnv) (r : ImageMeta),
      set_heic_live_photo_video_index meta v env = .ok r →
      r.motionPhotoTsUs = some (natDecStr (_safe_non_negative_int v 0).toNat) ∧
      r.microVideoTsUs = some (natDecStr (_safe_non_negative_int v 0).toNat)) ∧
    (∀ (v : PyVal) (u : Option (List Char)) (env : ToolEnv) (r : MovMeta),
      convert_mp4_to_mov (some v) u env = .ok r →
      r.stillTimeUs = none ∨ r.stillTimeUs = some (_safe_non_negative_int v 0)) ∧
    (_safe_non_negative_int .pynone 0 = 0 ∧
     _safe_non_negative_int (.int (-5)) 0 = 0 ∧
     _safe_non_negative_int (.str "abc".data) 0 = 0 ∧
     _safe_non_negative_int (.str "42".data) 0 = 42) := by
  refine ⟨?_, ?_, ?_, ?_, ?_, ?_, by decide, by decide, by decide, by decide⟩
  · intro v
    unfold _safe_non_negative_int
    cases hp : pyParseInt (pyStrip (pyStrv v)) with
    | none => simp
    | some p => simp only; split <;> omega
  · intro v hp
    unfold _safe_non_negative_int
    rw [hp]
  · intro v n hp hn
    unfold _safe_non_negative_int
    rw [hp]
    simp only
    rw [if_neg (by omega)]
  · intro meta vs v
    exact ⟨rfl, rfl⟩
  · intro meta v env r hr
    have hf := set_heic_live_photo_video_index_ok meta v env r hr
    exact ⟨hf.1, hf.2.1⟩
  · intro v u env r hr
    rcases convert_mp4_to_mov_ok_some v u env r hr with ⟨_, _, hrec⟩ | ⟨_, hrec⟩
    · subst hrec; exact Or.inr rfl
    · subst hrec; exact Or.inl rfl

/-- Image metadata after writing the coerced default timestamp. -/
def coercedDefaultMeta : ImageMeta :=
  { microVideoTsUs := some "0".data, motionPhotoTsUs := some "0".data,
    livePhotoVideoIndex := some "0".data }

/-- Witness for C10: writing a `None` timestamp stores the coerced 0. -/
theorem timestamp_coercion_boundary_witness :
    coercedDefaultMeta.motionPhotoTsUs =
      some (natDecStr (_safe_non_negative_int .pynone 0).toNat) ∧
    coercedDefaultMeta.microVideoTsUs =
      some (natDecStr (_safe_non_negative_int .pynone 0).toNat) :=
  timestamp_coercion_boundary.2.2.2.2.1 {} .pynone {} coercedDefaultMeta rfl

end PipelineInversion

/-- Outcome of one batch job body, as observed at the `try` boundary of
`batch.convert_batch_livp`: the job succeeded, the extracted LIVP was
missing its image or video entry, or some stage raised with a message. -/
inductive JobOutcome where
  | ok
  | incompletePair
  | raised (msg : List Char)
deriving DecidableEq

/-- The failure message recorded when a LIVP lacks an image or video. -/
def incompleteLivpMsg : List Char := "LIVP 需包含图片和视频".data

/-- Model of the loop of `batch.convert_batch_livp`: one job per
collected input, in order; the incomplete-pair case and any exception
are recorded as `(path, message)` on the failure list and processing
continues; a completed job increments the success count. Returns
`(successCount, orderedFailureList)`. The job body (extraction plus
`create_motion_photo` on external files) is the `run` argument. -/
def convert_batch_livp (inputs : List (List Char))
    (run : List Char → JobOutcome) : Nat × List (List Char × List Char) :=
  inputs.foldl
    (fun acc p =>
      match run p with
      | .ok => (acc.1 + 1, acc.2)
      | .incompletePair => (acc.1, acc.2 ++ [(p, incompleteLivpMsg)])
      | .raised msg => (acc.1, acc.2 ++ [(p, msg)]))
    (0, [])

/-- Model of the exit of `batch.main`: `sys.exit(0 if not failed else 1)`. -/
def batch_exit_code (result : Nat × List (List Char × List Char)) : Nat :=
  if result.2.isEmpty then 0 else 1

/-- The failure entry one input contributes, if any. -/
def jobFailureEntry (run : List Char → JobOutcome) (p : List Char) :
    Option (List Char × List Char) :=
  match run p with
  | .ok => none
  | .incompletePair => some (p, incompleteLivpMsg)
  | .raised msg => some (p, msg)

theorem convert_batch_livp_loop (run : List Char → JobOutcome) :
    ∀ (inputs : List (List Char)) (acc : Nat × List (List Char × List Char)),
      inputs.foldl
        (fun acc p =>
          match run p with
          | .ok => (acc.1 + 1, acc.2)
          | .incompletePair => (acc.1, acc.2 ++ [(p, incompleteLivpMsg)])
          | .raised msg => (acc.1, acc.2 ++ [(p, msg)])) acc =
      (acc.1 + (inputs.filter (fun p => run p = .ok)).length,
       acc.2 ++ inputs.filterMap (jobFailureEntry run)) := by
  intro inputs
  induction inputs with
  | nil => intro acc; simp
  | cons p rest ih =>
    intro acc
    rw [List.foldl_cons, List.filter_cons, List.filterMap_cons]
    cases hr : run p with
    | ok =>
      simp only [hr, ih, jobFailureEntry, hr]
      simp [jobFailureEntry, hr]
      omega
    | incompletePair =>
      simp only [hr, ih]
      simp [jobFailureEntry, hr]
    | raised msg =>
      simp only [hr, ih]
      simp [jobFailureEntry, hr]

/-- C7: batch isolation and aggregate exit code. Every eligible input
is one independent job; an exception or incomplete pair is recorded as
`(inputPath, message)` in input order and processing continues, so the
final result is the success count together with the ordered failure
list, success count plus failure count equals the number of inputs, and
the process exit code is 0 exactly when the failure list is empty. -/
theorem batch_isolation_and_exit (inputs : List (List Char))
    (run : List Char → JobOutcome) :
    (convert_batch_livp inputs run).1 =
      (inputs.filter (fun p => run p = .ok)).length ∧
    (convert_batch_livp inputs run).2 = inputs.filterMap (jobFailureEntry run) ∧
    (convert_batch_livp inputs run).1 + (convert_batch_livp inputs run).2.length =
      inputs.length ∧
    (batch_exit_code (convert_batch_livp inputs run) = 0 ↔
      (convert_batch_livp inputs run).2 = []) := by
  have hloop := convert_batch_livp_loop run inputs (0, [])
  have hres : convert_batch_livp inputs run =
      ((inputs.filter (fun p => run p = .ok)).length,
       inputs.filterMap (jobFailureEntry run)) := by
    rw [convert_batch_livp, hloop]
    simp
  refine ⟨by rw [hres], by rw [hres], ?_, ?_⟩
  · rw [hres]
    simp only
    have hcount : ∀ l : List (List Char),
        (l.filter (fun p => run p = .ok)).length +
          (l.filterMap (jobFailureEntry run)).length = l.length := by
      intro l
      induction l with
      | nil => simp
      | cons p rest ihl =>
        rw [List.filter_cons, List.filterMap_cons]
        cases hr : run p <;> simp [jobFailureEntry, hr] <;> omega
    exact hcount inputs
  · rw [hres, batch_exit_code]
    simp only
    cases hemp : (inputs.filterMap (jobFailureEntry run)).isEmpty <;>
      simp_all [List.isEmpty_iff]

/-- A JSON field value as ffprobe emits it: absent, the literal `N/A`,
a decimal number (kept exact as a rational), or a non-numeric string. -/
inductive JVal where
  | missing
  | na
  | num (q : ℚ)
  | other
deriving DecidableEq

/-- One stream entry of the first ffprobe probe of
`get_apple_live_photo_presentation_timestamp_us`. -/
structure ProbeStream where
  start_time : JVal := .missing
  duration : JVal := .missing
  nb_frames : JVal := .missing
deriving DecidableEq

/-- One packet entry of the fallback ffprobe probe. -/
structure ProbePacket where
  pts_time : JVal := .missing
  size : JVal := .missing
deriving DecidableEq

/-- The coercion `_safe_non_negative_int` applied to a JSON field
value: `int(str(value))` of a decimal JSON number succeeds exactly when
the number is integral, `None`/`N/A`/non-numeric strings fall back to
the default, and a negative integer falls back to the default. -/
def safeNonNegIntJ (v : JVal) (default : Int) : Int :=
  match v with
  | .num q => if q.den = 1 then (if 0 ≤ q.num then q.num else default) else default
  | _ => default

/-- Stream-stage candidate filter: a parseable positive start time, a
frame count of exactly 1, and (when the duration is known) a duration
of at most 0.02 s (the constant is written `mkRat 1 50 = 0.02`). -/
def streamCandidate (s : ProbeStream) : Option ℚ :=
  match s.start_time with
  | .num q =>
    if q ≤ 0 then none
    else if safeNonNegIntJ s.nb_frames (-1) ≠ 1 then none
    else
      match s.duration with
      | .num d => if d > mkRat 1 50 then none else some q
      | _ => some q
  | _ => none

/-- Packet-stage candidate filter: a parseable positive pts and a
packet size in (0, 16]. -/
def packetCandidate (p : ProbePacket) : Option ℚ :=
  match p.pts_time with
  | .num q =>
    let size := safeNonNegIntJ p.size (-1)
    if size ≤ 0 ∨ 16 < size then none
    else if 0 < q then some q else none
  | _ => none

/-- Floor of a rational, computed as floor division of numerator by
denominator. -/
def qfloor (q : ℚ) : ℤ := q.num.fdiv q.den

/-- Model of Python `round` on an exact rational (bankers' rounding,
half to even), composed with the identity `int` of the code. -/
def pythonRound (q : ℚ) : ℤ :=
  let f := qfloor q
  let r := q - (f : ℚ)
  if r < mkRat 1 2 then f
  else if mkRat 1 2 < r then f + 1
  else if f % 2 = 0 then f else f + 1

theorem int_fdiv_one (n : ℤ) : n.fdiv 1 = n := by
  rcases n with m | m
  · show Int.fdiv (Int.ofNat m) (Int.ofNat 1) = Int.ofNat m
    cases m <;> simp [Int.fdiv]
  · simp [Int.fdiv]

/-- Rounding an integral rational returns that integer. -/
theorem pythonRound_intCast (n : ℤ) : pythonRound ((n : ℤ) : ℚ) = n := by
  simp only [pythonRound, qfloor, Rat.num_intCast, Rat.den_intCast, Nat.cast_one,
    int_fdiv_one]
  norm_num [Rat.mkRat_eq_div]

/-- Python `min` over a nonempty list. -/
def minQ (c : ℚ) (cs : List ℚ) : ℚ := cs.foldl min c

/-- Model of `utils.get_apple_live_photo_presentation_timestamp_us`:
when the stream probe ran and produced candidates, return the rounded
minimum ×1e6; otherwise run the packet fallback the same way; `none`
when nothing qualifies. The `Ok` flags model the ffprobe exit status
and JSON validity of each probe. -/
def get_apple_live_photo_presentation_timestamp_us
    (streamProbeOk : Bool) (streams : List ProbeStream)
    (packetProbeOk : Bool) (packets : List ProbePacket) : Option Int :=
  let cands := if streamProbeOk then streams.filterMap streamCandidate else []
  match cands with
  | c :: cs => some (pythonRound (minQ c cs * 1000000))
  | [] =>
    if packetProbeOk then
      match packets.filterMap packetCandidate with
      | [] => none
      | c :: cs => some (pythonRound (minQ c cs * 1000000))
    else none

/-- C9: timestamp inference. Every packet candidate has positive
presentation time and size in (0, 16]; every stream candidate has
positive start time and, when a duration is known, duration at most
20 ms; the minimum candidate wins and is rounded to microseconds; in
particular a single candidate packet at 0.015 s of size 9 bytes infers
15000 µs. -/
theorem timestamp_inference :
    (∀ (p : ProbePacket) (q : ℚ), packetCandidate p = some q →
      p.pts_time = .num q ∧ 0 < q ∧ 0 < safeNonNegIntJ p.size (-1) ∧
      safeNonNegIntJ p.size (-1) ≤ 16) ∧
    (∀ (s : ProbeStream) (q : ℚ), streamCandidate s = some q →
      s.start_time = .num q ∧ 0 < q ∧
      (∀ d : ℚ, s.duration = .num d → d ≤ 1 / 50)) ∧
    get_apple_live_photo_presentation_timestamp_us true [] true
      [{ pts_time := .num (mkRat 15 1000), size := .num 9 }] = some 15000 ∧
    get_apple_live_photo_presentation_timestamp_us true [] true
      [{ pts_time := .num (mkRat 3 100), size := .num 9 },
       { pts_time := .num (mkRat 15 1000), size := .num 9 }] = some 15000 ∧
    get_apple_live_photo_presentation_timestamp_us true [] true
      [{ pts_time := .num (mkRat 15 1000), size := .num 17 }] = none ∧
    get_apple_live_photo_presentation_timestamp_us true
      [{ start_time := .num (mkRat 15 1000), duration := .num (mkRat 21 1000),
         nb_frames := .num 1 }] true [] = none ∧
    get_apple_live_photo_presentation_timestamp_us true
      [{ start_time := .num (mkRat 15 1000), duration := .num (mkRat 15 1000),
         nb_frames := .num 1 }] true [] = some 15000 := by
  have h50 : (mkRat 1 50 : ℚ) = 1 / 50 := by norm_num [Rat.mkRat_eq_div]
  have hmul15 : mkRat 15 1000 * 1000000 = ((15000 : ℤ) : ℚ) := by
    norm_num [Rat.mkRat_eq_div]
  refine ⟨?_, ?_, ?_, ?_, ?_, ?_, ?_⟩
  · intro p q hpc
    cases hpt : p.pts_time with
    | num q0 =>
      rw [packetCandidate, hpt] at hpc
      simp only at hpc
      by_cases hsz : safeNonNegIntJ p.size (-1) ≤ 0 ∨ 16 < safeNonNegIntJ p.size (-1)
      · rw [if_pos hsz] at hpc; exact absurd hpc (by simp)
      · rw [if_neg hsz] at hpc
        push_neg at hsz
        by_cases hq : 0 < q0
        · rw [if_pos hq] at hpc
          have hqq : q0 = q := Option.some.inj hpc
          subst hqq
          exact ⟨rfl, hq, hsz.1, hsz.2⟩
        · rw [if_neg hq] at hpc; exact absurd hpc (by simp)
    | missing => rw [packetCandidate, hpt] at hpc; exact absurd hpc (by simp)
    | na => rw [packetCandidate, hpt] at hpc; exact absurd hpc (by simp)
    | other => rw [packetCandidate, hpt] at hpc; exact absurd hpc (by simp)
  · intro s q hsc
    cases hst : s.start_time with
    | num q0 =>
      rw [streamCandidate, hst] at hsc
      simp only at hsc
      by_cases hq : q0 ≤ 0
      · rw [if_pos hq] at hsc; exact absurd hsc (by simp)
      · rw [if_neg hq] at hsc
        by_cases hfr : safeNonNegIntJ s.nb_frames (-1) ≠ 1
        · rw [if_pos hfr] at hsc; exact absurd hsc (by simp)
        · rw [if_neg hfr] at hsc
          cases hd : s.duration with
          | num d0 =>
            rw [hd] at hsc
            simp only at hsc
            by_cases hdur : d0 > mkRat 1 50
            · rw [if_pos hdur] at hsc; exact absurd hsc (by simp)
            · rw [if_neg hdur] at hsc
              have hqq : q0 = q := Option.some.inj hsc
              subst hqq
              refine ⟨rfl, lt_of_not_le hq, ?_⟩
              intro d hdd
              have hdeq : d0 = d := by injection hdd
              subst hdeq
              rw [← h50]
              exact not_lt.mp hdur
          | missing =>
            rw [hd] at hsc
            simp only at hsc
            have hqq : q0 = q := Option.some.inj hsc
            subst hqq
            refine ⟨rfl, lt_of_not_le hq, ?_⟩
            intro d hdd
            exact absurd hdd (by simp)
          | na =>
            rw [hd] at hsc
            simp only at hsc
            have hqq : q0 = q := Option.some.inj hsc
            subst hqq
            refine ⟨rfl, lt_of_not_le hq, ?_⟩
            intro d hdd
            exact absurd hdd (by simp)
          | other =>
            rw [hd] at hsc
            simp only at hsc
            have hqq : q0 = q := Option.some.inj hsc
            subst hqq
            refine ⟨rfl, lt_of_not_le hq, ?_⟩
            intro d hdd
            exact absurd hdd (by simp)
    | missing => rw [streamCandidate, hst] at hsc; exact absurd hsc (by simp)
    | na => rw [streamCandidate, hst] at hsc; exact absurd hsc (by simp)
    | other => rw [streamCandidate, hst] at hsc; exact absurd hsc (by simp)
  · have hcand : packetCandidate
        { pts_time := .num (mkRat 15 1000), size := .num 9 } =
        some (mkRat 15 1000) := by decide
    simp only [get_apple_live_photo_presentation_timestamp_us, if_true,
      List.filterMap_nil, List.filterMap_cons, hcand, minQ, List.foldl_nil]
    rw [hmul15, pythonRound_intCast]
  · have hcand1 : packetCandidate
        { pts_time := .num (mkRat 3 100), size := .num 9 } =
        some (mkRat 3 100) := by decide
    have hcand2 : packetCandidate
        { pts_time := .num (mkRat 15 1000), size := .num 9 } =
        some (mkRat 15 1000) := by decide
    have hmin : min (mkRat 3 100) (mkRat 15 1000) * 1000000 = ((15000 : ℤ) : ℚ) := by
      rw [min_def]
      norm_num [Rat.mkRat_eq_div]
    simp only [get_apple_live_photo_presentation_timestamp_us, if_true,
      List.filterMap_nil, List.filterMap_cons, hcand1, hcand2, minQ,
      List.foldl_cons, List.foldl_nil]
    rw [hmin, pythonRound_intCast]
  · have hcand : packetCandidate
        { pts_time := .num (mkRat 15 1000), size := .num 17 } = none := by decide
    simp [get_apple_live_photo_presentation_timestamp_us, hcand]
  · have hcand : streamCandidate
        { start_time := .num (mkRat 15 1000), duration := .num (mkRat 21 1000),
          nb_frames := .num 1 } = none := by decide
    simp [get_apple_live_photo_presentation_timestamp_us, hcand]
  · have hcand : streamCandidate
        { start_time := .num (mkRat 15 1000), duration := .num (mkRat 15 1000),
          nb_frames := .num 1 } = some (mkRat 15 1000) := by decide
    simp only [get_apple_live_photo_presentation_timestamp_us, if_true,
      List.filterMap_nil, List.filterMap_cons, hcand, minQ, List.foldl_nil]
    rw [hmul15, pythonRound_intCast]

/-- The single candidate packet of the spec\u2019s concrete instance. -/
def stillTimePacket : ProbePacket :=
  { pts_time := .num (mkRat 15 1000), size := .num 9 }

/-- Witness for C9 at the concrete candidate packet. -/
theorem timestamp_inference_witness :
    stillTimePacket.pts_time = .num (mkRat 15 1000) ∧ (0 : ℚ) < mkRat 15 1000 ∧
    0 < safeNonNegIntJ stillTimePacket.size (-1) ∧
    safeNonNegIntJ stillTimePacket.size (-1) ≤ 16 :=
  timestamp_inference.1 stillTimePacket (mkRat 15 1000) (by decide)
/-- Witness for C5 (amended) at concrete jobs in both directions. -/
theorem hdr_fallback_orientation_witness :
    (convert_heic_to_jpg hdrHeicSample enhHeicFailEnv =
      .ok (_copy_metadata_with_normalized_orientation hdrHeicSample.meta) ∧
      (_copy_metadata_with_normalized_orientation hdrHeicSample.meta).orientation =
        some 1) ∧
    (convert_jpg_to_heic ultraHdrJpgSample (some ultraHdrJpgSample.meta) enhJpgFailEnv =
      .ok (stripMotionTags ultraHdrJpgSample.meta) ∧
      (stripMotionTags ultraHdrJpgSample.meta).orientation =
        ultraHdrJpgSample.meta.orientation) :=
  ⟨hdr_fallback_orientation.1 hdrHeicSample enhHeicFailEnv rfl rfl (by decide),
   hdr_fallback_orientation.2 ultraHdrJpgSample ultraHdrJpgSample.meta enhJpgFailEnv
     rfl rfl (by decide)⟩

end MotionPhoto
